import Mathlib

/-!
Shallow embedding of the task-tracking backend (FastAPI + MongoDB) found in
`src/app`.  Documents are modelled as association lists of field name to BSON
value; the Mongo collection operations used by the routes (`find_one`,
`update_one`, `insert_one`, `delete_one`, filtered `find` with a sort) are
modelled over lists of documents.  Time is an explicit `Nat` parameter
standing for `datetime.utcnow()`; the HTTP layer's bearer-token handling and
the JWT decode are modelled abstractly (a token is either a well-formed signed
payload or garbage; HMAC itself is not modelled, only whether the signing
secret matches).
-/

set_option autoImplicit false

namespace TaskBackend

/-- BSON-ish field values stored in documents. -/
inductive Value where
  | str (s : String)
  | int (n : Int)
  | time (t : Nat)
  | boolean (b : Bool)
  | null
deriving DecidableEq

/-- A document is an association list of field name to value (Python dict /
Mongo document; keys are unique in every document the code builds). -/
abbrev Doc := List (String × Value)

namespace Doc

/-- First-match association lookup (Python `d[k]` / `d.get(k)`). -/
def lookup (d : Doc) (k : String) : Option Value :=
  match d with
  | [] => none
  | (k', v) :: rest => if k' = k then some v else lookup rest k

/-- Python `d.get(k, dflt)` restricted to string-valued fields (every field
this backend reads with a string default stores strings). -/
def getStrD (d : Doc) (k : String) (dflt : String) : String :=
  match d.lookup k with
  | some (.str s) => s
  | _ => dflt

/-- Set one field: replace the first occurrence in place, else append
(Python dict assignment / Mongo `$set` of a single field). -/
def setField (d : Doc) (k : String) (v : Value) : Doc :=
  match d with
  | [] => [(k, v)]
  | (k', v') :: rest => if k' = k then (k', v) :: rest else (k', v') :: setField rest k v

/-- Python `d.update(u)` / Mongo `$set` of a whole document. -/
def update (d : Doc) (u : Doc) : Doc :=
  u.foldl (fun acc kv => acc.setField kv.1 kv.2) d

/-- The list of keys of a document. -/
def keys (d : Doc) : List String := d.map Prod.fst

end Doc

/-- `db.tasks.find_one({"user_id": uid, "date": date})` filter. -/
def taskKeyFilter (uid date : String) (d : Doc) : Bool :=
  d.lookup "user_id" = some (.str uid) && d.lookup "date" = some (.str date)

/-- `db.users.find_one({"uid": uid})` filter. -/
def uidFilter (uid : String) (d : Doc) : Bool :=
  d.lookup "uid" = some (.str uid)

/-- Mongo `find_one`: first document matching the filter. -/
def findOne (l : List Doc) (p : Doc → Bool) : Option Doc :=
  l.find? p

/-- Mongo `update_one(filter, {$set: upd})`: update the first matching
document; also report whether any document matched (`matched_count`). -/
def updateOne (l : List Doc) (p : Doc → Bool) (upd : Doc) : List Doc × Bool :=
  match l with
  | [] => ([], false)
  | d :: rest =>
    if p d then (d.update upd :: rest, true)
    else
      let r := updateOne rest p upd
      (d :: r.1, r.2)

/-- Mongo `delete_one(filter)`: remove the first matching document; also
report whether anything was deleted (`deleted_count`). -/
def deleteOne (l : List Doc) (p : Doc → Bool) : List Doc × Bool :=
  (l.eraseP p, l.any p)

/-- The string stored in a document's `date` field (used by sorts). -/
def dateOf (d : Doc) : String := d.getStrD "date" ""

/-- Lexicographic comparison of character lists by code point — the string
order used by Python `<` and by Mongo's binary collation on the ASCII
`YYYY-MM-DD` date strings this backend stores. -/
def strLtB : List Char → List Char → Bool
  | [], [] => false
  | [], _ :: _ => true
  | _ :: _, [] => false
  | a :: as, b :: bs => if a < b then true else if b < a then false else strLtB as bs

/-- Lexicographic strict order on strings. -/
def strLt (a b : String) : Bool := strLtB a.data b.data

/-- Decidability of the date-descending sort relation. -/
instance dateDescDecidable :
    DecidableRel (fun a b : Doc => strLt (dateOf a) (dateOf b) = false) :=
  fun a b => inferInstanceAs (Decidable (strLt (dateOf a) (dateOf b) = false))

/-- Mongo `find(...).sort("date", -1)`: documents in descending `date`
order. -/
def sortByDateDesc (l : List Doc) : List Doc :=
  l.insertionSort (fun a b => strLt (dateOf a) (dateOf b) = false)

/-! ## Dates and weekday names (`get_today_str` / `get_day_name`) -/

/-- Weekday names indexed by Zeller's congruence (h = 0 is Saturday), the
weekday convention realised by `strftime("%A")` on the parsed date. -/
def dayNames : List String :=
  ["Saturday", "Sunday", "Monday", "Tuesday", "Wednesday", "Thursday", "Friday"]

/-- Days in a month of the proleptic Gregorian calendar. -/
def daysInMonth (y m : Nat) : Nat :=
  if m = 2 then
    if y % 4 = 0 && (y % 100 ≠ 0 || y % 400 = 0) then 29 else 28
  else if m = 4 || m = 6 || m = 9 || m = 11 then 30
  else 31

/-- Split a character list at `-` separators (the behavior of
`str.split("-")` on the date strings). -/
def splitDash (l : List Char) : List (List Char) :=
  match l with
  | [] => [[]]
  | c :: rest =>
    let ps := splitDash rest
    if c = '-' then [] :: ps
    else
      match ps with
      | [] => [[c]]
      | p :: pt => (c :: p) :: pt

/-- The numeric value of a decimal digit character. -/
def digitVal (c : Char) : Option Nat :=
  if '0' ≤ c ∧ c ≤ '9' then some (c.toNat - 48) else none

/-- Accumulating decimal parse of a digit string. -/
def digitsToNatAux (acc : Nat) : List Char → Option Nat
  | [] => some acc
  | c :: rest =>
    match digitVal c with
    | some d => digitsToNatAux (acc * 10 + d) rest
    | none => none

/-- Decimal parse of a non-empty digit string. -/
def digitsToNat (l : List Char) : Option Nat :=
  if l = [] then none else digitsToNatAux 0 l

/-- `datetime.strptime(s, "%Y-%m-%d")`: parse a `YYYY-MM-DD` string (four
digits of year, one or two of month and day, a real calendar day), `none`
when the string does not denote a calendar date (Python raises
`ValueError`). -/
def parseDate (s : String) : Option (Nat × Nat × Nat) :=
  match splitDash s.data with
  | [ys, ms, ds] =>
    match digitsToNat ys, digitsToNat ms, digitsToNat ds with
    | some y, some m, some d =>
      if ys.length = 4 && ms.length ≤ 2 && ds.length ≤ 2
          && 1 ≤ m && m ≤ 12 && 1 ≤ d && d ≤ daysInMonth y m then
        some (y, m, d)
      else none
    | _, _, _ => none
  | _ => none

/-- Zeller's congruence: weekday index of a Gregorian date, 0 = Saturday. -/
def zeller (y m d : Nat) : Nat :=
  let m' := if m ≤ 2 then m + 12 else m
  let y' := if m ≤ 2 then y - 1 else y
  let K := y' % 100
  let J := y' / 100
  (d + (13 * (m' + 1)) / 5 + K + K / 4 + J / 4 + 5 * J) % 7

/-- `get_day_name(date_str)` from `routes.py`: the English weekday name of a
`YYYY-MM-DD` string (`none` models the `ValueError` raised on a malformed
date). -/
def get_day_name (s : String) : Option String :=
  (parseDate s).map fun ymd => dayNames.getD (zeller ymd.1 ymd.2.1 ymd.2.2) ""

/-- Python `x or today` on an optional query-string value: `None` and the
empty string are falsy and fall back to today. -/
def orToday (q : Option String) (today : String) : String :=
  match q with
  | none => today
  | some s => if s = "" then today else s

/-! ## Token service (`auth.py`) -/

/-- The claims carried by a JWT issued by `create_token`. -/
structure Claims where
  uid : String
  email : String
  role : String
  iat : Nat
  exp : Nat
deriving DecidableEq

/-- A bearer-token input as seen by `jwt.decode`: either a structurally
well-formed JWT signed with some secret, or structurally malformed bytes.
HMAC unforgeability is abstracted to comparing the signing secret. -/
inductive TokenInput where
  | signed (claims : Claims) (secret : String)
  | malformed (raw : String)
deriving DecidableEq

/-- The PyJWT exceptions `verify_token` catches. -/
inductive JwtError where
  | expiredSignature
  | invalidToken
deriving DecidableEq

/-- `jwt.decode(token, secret, algorithms=["HS256"])`: signature is checked
before the `exp` claim. -/
def jwtDecode (secret : String) (now : Nat) : TokenInput → Except JwtError Claims
  | .malformed _ => .error .invalidToken
  | .signed c s =>
    if s = secret then
      if c.exp ≤ now then .error .expiredSignature else .ok c
    else .error .invalidToken

/-- `verify_token` from `auth.py`: both `ExpiredSignatureError` and
`InvalidTokenError` are caught and collapsed to `None`. -/
def verify_token (secret : String) (now : Nat) (tok : TokenInput) : Option Claims :=
  match jwtDecode secret now tok with
  | .ok c => some c
  | .error _ => none

/-! ## Access gate (`deps.py`) -/

/-- An HTTP error response (`HTTPException(status_code, detail)`). -/
structure HttpError where
  status : Nat
  detail : String
deriving DecidableEq

/-- The request's `Authorization` header as seen by FastAPI's `HTTPBearer`
dependency: absent, or a scheme with an optional credentials part. -/
inductive AuthHeader where
  | missing
  | scheme (name : String) (credentials : Option TokenInput)
deriving DecidableEq

/-- ASCII lower-casing of one character (Python `str.lower` on the scheme
names that occur in an `Authorization` header). -/
def lowerChar (c : Char) : Char :=
  if 'A' ≤ c ∧ c ≤ 'Z' then Char.ofNat (c.toNat + 32) else c

/-- ASCII lower-casing of a scheme name. -/
def lowerStr (s : String) : String := String.mk (s.data.map lowerChar)

/-- FastAPI `HTTPBearer()` with `auto_error=True`: a missing header or empty
credentials yield HTTP 403 "Not authenticated"; a non-Bearer scheme yields
HTTP 403 "Invalid authentication credentials". -/
def httpBearer : AuthHeader → Except HttpError TokenInput
  | .missing => .error ⟨403, "Not authenticated"⟩
  | .scheme _ none => .error ⟨403, "Not authenticated"⟩
  | .scheme n (some t) =>
    if lowerStr n = "bearer" then .ok t
    else .error ⟨403, "Invalid authentication credentials"⟩

/-- Python falsiness of `user.get("email")`. -/
def emailFalsy (d : Doc) : Bool :=
  match d.lookup "email" with
  | some (.str s) => s = ""
  | some .null => true
  | none => true
  | _ => false

/-- `get_current_user` from `deps.py`: bearer extraction, `verify_token`,
then a User Store lookup by the claimed `uid`; attaches the token's email
when the stored one is falsy. -/
def get_current_user (secret : String) (now : Nat) (users : List Doc)
    (h : AuthHeader) : Except HttpError Doc :=
  match httpBearer h with
  | .error e => .error e
  | .ok tok =>
    match verify_token secret now tok with
    | none => .error ⟨401, "Invalid authentication credentials"⟩
    | some decoded =>
      match findOne users (uidFilter decoded.uid) with
      | none => .error ⟨401, "User not found in database"⟩
      | some user =>
        .ok (if emailFalsy user then user.setField "email" (.str decoded.email) else user)

/-- `require_user` from `deps.py`: role must be `user` or `admin`. -/
def require_user (secret : String) (now : Nat) (users : List Doc)
    (h : AuthHeader) : Except HttpError Doc :=
  match get_current_user secret now users h with
  | .error e => .error e
  | .ok user =>
    if user.lookup "role" = some (.str "user") || user.lookup "role" = some (.str "admin") then
      .ok user
    else .error ⟨403, "Insufficient permissions"⟩

/-- `require_admin` from `deps.py`: role must be exactly `admin`. -/
def require_admin (secret : String) (now : Nat) (users : List Doc)
    (h : AuthHeader) : Except HttpError Doc :=
  match get_current_user secret now users h with
  | .error e => .error e
  | .ok user =>
    if user.lookup "role" = some (.str "admin") then .ok user
    else .error ⟨403, "Admin privileges required"⟩

/-! ## Database state and route responses -/

/-- The two Mongo collections the routes touch. -/
structure DBState where
  users : List Doc
  tasks : List Doc
deriving DecidableEq

/-- The `{"exists": ..., "task": ...}` response shape of the task reads. -/
structure TaskQueryResponse where
  existsFlag : Bool
  task : Option Doc
deriving DecidableEq

/-- Python exceptions that escape a route handler (FastAPI turns them into
an HTTP 500 response). -/
inductive PyError where
  | attributeError (msg : String)
  | keyError (msg : String)
  | valueError (msg : String)
deriving DecidableEq

/-! ## `TaskSave` (`schemas.py`)

The Pydantic request model for `POST /api/tasks/save`.  Its declared fields
are exactly `status`, `assign_website`, `task_assign_no`, `other_tasks`,
`task_updates`, `additional`, `note`, `total_pages_done`; there is no `date`
field.  Pydantic ignores undeclared keys of the request body and attribute
access on an undeclared field raises `AttributeError`. -/

structure TaskSave where
  status : Option String := some "Pending"
  assign_website : Option String := some ""
  task_assign_no : Option String := some ""
  other_tasks : Option String := some ""
  task_updates : Option String := some ""
  additional : Option String := some ""
  note : Option String := some ""
  total_pages_done : Option Int := some 0
  /-- Pydantic's `__fields_set__`: the declared fields the request body
  actually provided (in body order, restricted to declared fields). -/
  fields_set : List String := []
deriving DecidableEq

/-- The declared fields of `TaskSave`, in declaration order. -/
def taskSaveFields : List String :=
  ["status", "assign_website", "task_assign_no", "other_tasks",
   "task_updates", "additional", "note", "total_pages_done"]

/-- An `Optional[str]` field value as a BSON value. -/
def optStrValue : Option String → Value
  | some s => .str s
  | none => .null

/-- An `Optional[int]` field value as a BSON value. -/
def optIntValue : Option Int → Value
  | some n => .int n
  | none => .null

/-- A JSON value accepted for an `Optional[str]` field. -/
def asOptStr : Value → Option (Option String)
  | .str s => some (some s)
  | .null => some none
  | _ => none

/-- A JSON value accepted for an `Optional[int]` field. -/
def asOptInt : Value → Option (Option Int)
  | .int n => some (some n)
  | .null => some none
  | _ => none

/-- One string field of the Pydantic validation: keep the default when the
key is absent, else require a string-typed value and record the field as
set. -/
def parseStrField (payload : Doc) (name : String) (dflt : Option String) :
    Option (Option String × List String) :=
  match payload.lookup name with
  | none => some (dflt, [])
  | some v =>
    match asOptStr v with
    | none => none
    | some s => some (s, [name])

/-- Pydantic validation of the request body into a `TaskSave`: undeclared
keys (in particular `date`) are ignored, declared keys must type-check
(`none` models a 422 validation error). -/
def TaskSave.parse (payload : Doc) : Option TaskSave := do
  let st ← parseStrField payload "status" (some "Pending")
  let aw ← parseStrField payload "assign_website" (some "")
  let tn ← parseStrField payload "task_assign_no" (some "")
  let ot ← parseStrField payload "other_tasks" (some "")
  let tu ← parseStrField payload "task_updates" (some "")
  let ad ← parseStrField payload "additional" (some "")
  let nt ← parseStrField payload "note" (some "")
  let tp ←
    match payload.lookup "total_pages_done" with
    | none => some ((some 0 : Option Int), ([] : List String))
    | some v =>
      match asOptInt v with
      | none => none
      | some n => some (n, ["total_pages_done"])
  some { status := st.1, assign_website := aw.1, task_assign_no := tn.1,
         other_tasks := ot.1, task_updates := tu.1, additional := ad.1,
         note := nt.1, total_pages_done := tp.1,
         fields_set := st.2 ++ aw.2 ++ tn.2 ++ ot.2 ++ tu.2 ++ ad.2 ++ nt.2 ++ tp.2 }

/-- Python attribute access on a `TaskSave` instance: defined exactly on the
declared fields, `none` models the `AttributeError` raised on any other
name (such as `date`). -/
def TaskSave.getattr (t : TaskSave) (name : String) : Option Value :=
  if name = "status" then some (optStrValue t.status)
  else if name = "assign_website" then some (optStrValue t.assign_website)
  else if name = "task_assign_no" then some (optStrValue t.task_assign_no)
  else if name = "other_tasks" then some (optStrValue t.other_tasks)
  else if name = "task_updates" then some (optStrValue t.task_updates)
  else if name = "additional" then some (optStrValue t.additional)
  else if name = "note" then some (optStrValue t.note)
  else if name = "total_pages_done" then some (optIntValue t.total_pages_done)
  else none

/-- Pydantic `dict(exclude_unset=True)`: the set fields, in declaration
order. -/
def TaskSave.dictExcludeUnset (t : TaskSave) : Doc :=
  (if "status" ∈ t.fields_set then [("status", optStrValue t.status)] else []) ++
  (if "assign_website" ∈ t.fields_set then [("assign_website", optStrValue t.assign_website)] else []) ++
  (if "task_assign_no" ∈ t.fields_set then [("task_assign_no", optStrValue t.task_assign_no)] else []) ++
  (if "other_tasks" ∈ t.fields_set then [("other_tasks", optStrValue t.other_tasks)] else []) ++
  (if "task_updates" ∈ t.fields_set then [("task_updates", optStrValue t.task_updates)] else []) ++
  (if "additional" ∈ t.fields_set then [("additional", optStrValue t.additional)] else []) ++
  (if "note" ∈ t.fields_set then [("note", optStrValue t.note)] else []) ++
  (if "total_pages_done" ∈ t.fields_set then [("total_pages_done", optIntValue t.total_pages_done)] else [])

/-! ## User task routes (`routes.py`) -/

/-- `GET /api/tasks/today` (`get_today_task`): return the stored task for the
target date, or an un-persisted template built from the user's sticky
defaults. -/
def get_today_task (dateQ : Option String) (user : Doc) (today : String)
    (st : DBState) : Except PyError TaskQueryResponse :=
  let target_date := orToday dateQ today
  match user.lookup "uid" with
  | some (.str uid) =>
    match findOne st.tasks (taskKeyFilter uid target_date) with
    | some task => .ok ⟨true, some task⟩
    | none =>
      match findOne st.users (uidFilter uid) with
      | some user_doc =>
        .ok ⟨false, some
          [("date", .str target_date),
           ("assign_website", .str (user_doc.getStrD "assign_website" "")),
           ("task_assign_no", .str (user_doc.getStrD "task_assign_no" "")),
           ("other_tasks", .str (user_doc.getStrD "other_tasks" "")),
           ("status", .str "Not Started"),
           ("total_pages_done", .int 0)]⟩
      | none => .ok ⟨false, none⟩
  | _ => .error (.keyError "uid")

/-- The filter of `GET /api/tasks/previous`:
`{"user_id": uid, "date": {"$lt": target}}` (Mongo's `$lt` on a string
matches only string-valued `date` fields). -/
def prevFilter (uid target : String) (d : Doc) : Bool :=
  d.lookup "user_id" = some (.str uid) &&
    (match d.lookup "date" with
     | some (.str s) => strLt s target
     | _ => false)

/-- `GET /api/tasks/previous` (`get_previous_task`): the user's task with the
largest `date` strictly below the target (`find_one` with a descending
`date` sort); no template on a miss. -/
def get_previous_task (beforeQ : Option String) (user : Doc) (today : String)
    (st : DBState) : Except PyError TaskQueryResponse :=
  let target := orToday beforeQ today
  match user.lookup "uid" with
  | some (.str uid) =>
    match (sortByDateDesc (st.tasks.filter (prevFilter uid target))).head? with
    | some task => .ok ⟨true, some task⟩
    | none => .ok ⟨false, none⟩
  | _ => .error (.keyError "uid")

/-- `POST /api/tasks/save` (`save_task`).  The handler reads
`task_data.date` (line 129 of `routes.py`) before anything else touches the
store; since `TaskSave` declares no `date` field this attribute access
raises `AttributeError` on every request.  The remainder of the handler is
translated faithfully even though it is unreachable. -/
def save_task (user : Doc) (task_data : TaskSave) (today : String) (now : Nat)
    (st : DBState) : Except PyError (DBState × String) :=
  match user.lookup "uid" with
  | some (.str uid) =>
    match task_data.getattr "date" with
    | none => .error (.attributeError "TaskSave object has no attribute date")
    | some dateVal =>
      let target_date :=
        match dateVal with
        | .str s => if s = "" then today else s
        | _ => today
      match get_day_name target_date with
      | none => .error (.valueError "time data does not match format Y-m-d")
      | some day_name =>
        let update_doc := (task_data.dictExcludeUnset).filter (fun kv => kv.1 ≠ "date")
        let update_doc := Doc.setField update_doc "updated_at" (.time now)
        let owner_name :=
          let n := user.getStrD "name" ""
          if n = "" then user.getStrD "email" "Unknown" else n
        let insert_doc : Doc :=
          [("user_id", .str uid), ("date", .str target_date),
           ("owner_name", .str owner_name), ("planner", .str day_name),
           ("created_at", .time now)]
        let r := updateOne st.tasks (taskKeyFilter uid target_date) update_doc
        let tasks2 := if r.2 then r.1 else st.tasks ++ [insert_doc.update update_doc]
        .ok ({ st with tasks := tasks2 }, "Task saved")
  | _ => .error (.keyError "uid")

/-- The state a save leaves behind: on an escaped exception the handler never
reached the store, so the state is unchanged. -/
def runSaveTask (user : Doc) (task_data : TaskSave) (today : String) (now : Nat)
    (st : DBState) : DBState :=
  match save_task user task_data today now st with
  | .ok r => r.1
  | .error _ => st

/-! ## Admin routes (`routes.py`) -/

/-- The sticky-default write-back document built by `admin_update_task`: the
three assignment keys of the payload, in the order the code checks them. -/
def stickyUpdates (task_update : Doc) : Doc :=
  (match task_update.lookup "assign_website" with
   | some v => [("assign_website", v)]
   | none => []) ++
  (match task_update.lookup "task_assign_no" with
   | some v => [("task_assign_no", v)]
   | none => []) ++
  (match task_update.lookup "other_tasks" with
   | some v => [("other_tasks", v)]
   | none => [])

/-- `PUT /api/admin/task/{user_id}/{date}` (`admin_update_task`): try a
field-merge update; if nothing matched, require the user to exist and insert
a synthesized record overlaid with the payload; on either path write the
payload's assignment fields back onto the user record. -/
def admin_update_task (user_id date : String) (task_update : Doc) (admin : Doc)
    (now : Nat) (st : DBState) : Except HttpError (DBState × String) :=
  let task_update := Doc.setField task_update "updated_at" (.time now)
  let r := updateOne st.tasks (taskKeyFilter user_id date) task_update
  if r.2 = false then
    match findOne st.users (uidFilter user_id) with
    | none => .error ⟨404, "User not found to assign task to"⟩
    | some user =>
      let new_task : Doc :=
        [("user_id", .str user_id), ("date", .str date),
         ("owner_name", .str (user.getStrD "name" "Unknown")),
         ("planner", .str ("Admin (" ++ admin.getStrD "name" "Admin" ++ ")")),
         ("status", .str "Not Started"),
         ("assign_website", .str ""), ("task_assign_no", .str ""),
         ("other_tasks", .str ""), ("task_updates", .str ""),
         ("additional", .str ""), ("note", .str ""),
         ("total_pages_done", .int 0),
         ("created_at", .time now), ("updated_at", .time now)]
      let new_task := new_task.update task_update
      let tasks2 := st.tasks ++ [new_task]
      let user_updates := stickyUpdates task_update
      let users2 :=
        if user_updates ≠ [] then (updateOne st.users (uidFilter user_id) user_updates).1
        else st.users
      .ok ({ users := users2, tasks := tasks2 }, "Task created successfully")
  else
    let user_updates := stickyUpdates task_update
    let users2 :=
      if user_updates ≠ [] then (updateOne st.users (uidFilter user_id) user_updates).1
      else st.users
    .ok ({ users := users2, tasks := r.1 }, "Task updated successfully")

/-- The state `admin_update_task` leaves behind (an error response leaves the
store as it was). -/
def runAdminUpdateTask (user_id date : String) (task_update : Doc) (admin : Doc)
    (now : Nat) (st : DBState) : DBState :=
  match admin_update_task user_id date task_update admin now st with
  | .ok r => r.1
  | .error _ => st

/-- `DELETE /api/admin/user/{uid}` (`delete_user`): `delete_one` on the users
collection only; the raised 404 is swallowed by the handler's blanket
`except` clause and re-raised as a 400. -/
def delete_user (uid : String) (st : DBState) : Except HttpError (DBState × String) :=
  let r := deleteOne st.users (uidFilter uid)
  if r.2 = false then .error ⟨400, "404: User not found"⟩
  else .ok ({ st with users := r.1 }, "User deleted successfully")

/-! ## Export (`export_tasks`) -/

/-- The fixed column order of the spreadsheet export. -/
def expected_cols : List String :=
  ["date", "owner_name", "user_id", "status",
   "total_pages_done", "assign_website", "task_updates",
   "planner", "task_assign_no", "other_tasks", "additional", "note"]

/-- The columns of `pd.DataFrame(tasks)`: the union of the documents' keys in
order of first appearance. -/
def presentCols (tasks : List Doc) : List String :=
  tasks.foldl (fun acc d => acc ++ (d.keys.filter (fun k => decide (k ∉ acc)))) []

/-- One spreadsheet cell: a column absent from every record was filled with
the empty string; a column present somewhere but absent from this record is
a `NaN` cell (`none`). -/
def exportCell (cols : List String) (d : Doc) (c : String) : Option Value :=
  if c ∈ cols then d.lookup c else some (.str "")

/-- The Mongo query of the export route: all tasks, or those of the given
date when a (non-falsy) `date` query parameter was supplied. -/
def exportQuery (dateQ : Option String) (d : Doc) : Bool :=
  match dateQ with
  | none => true
  | some s => if s = "" then true else d.lookup "date" = some (.str s)

/-- The result of a successful export: filename, header row and data rows. -/
structure ExportResult where
  filename : String
  header : List String
  rows : List (List (Option Value))
deriving DecidableEq

/-- `GET /api/admin/export/tasks` (`export_tasks`): filter by the optional
date, 404 when nothing matches, otherwise one row per task with the fixed
12 columns, columns missing from the data filled with the empty string. -/
def export_tasks (dateQ : Option String) (today : String) (st : DBState) :
    Except HttpError ExportResult :=
  let query := exportQuery dateQ
  let filename :=
    match dateQ with
    | none => "tasks_all_" ++ today ++ ".xlsx"
    | some s => if s = "" then "tasks_all_" ++ today ++ ".xlsx" else "tasks_" ++ s ++ ".xlsx"
  let tasks := sortByDateDesc (st.tasks.filter query)
  if tasks = [] then .error ⟨404, "No tasks found"⟩
  else
    let cols := presentCols tasks
    .ok { filename := filename
          header := expected_cols
          rows := tasks.map (fun d => expected_cols.map (exportCell cols d)) }

/-! ## Helper lemmas about documents and collection operations -/

theorem Doc.lookup_eq_none_of_not_mem {d : Doc} {k : String} (h : k ∉ Doc.keys d) :
    Doc.lookup d k = none := by
  induction d with
  | nil => rfl
  | cons kv t ih =>
    simp only [Doc.keys, List.map_cons, List.mem_cons, not_or] at h
    have h2 : Doc.lookup t k = none := ih (by simpa [Doc.keys] using h.2)
    simp only [Doc.lookup, h2]
    rw [if_neg (fun hh => h.1 hh.symm)]

theorem Doc.mem_keys_of_lookup {d : Doc} {k : String} {v : Value}
    (h : Doc.lookup d k = some v) : k ∈ Doc.keys d := by
  by_contra hmem
  rw [Doc.lookup_eq_none_of_not_mem hmem] at h
  exact Option.noConfusion h

theorem Doc.lookup_setField_self (d : Doc) (k : String) (v : Value) :
    Doc.lookup (Doc.setField d k v) k = some v := by
  induction d with
  | nil => simp [Doc.setField, Doc.lookup]
  | cons kv t ih =>
    by_cases hk : kv.1 = k
    · simp [Doc.setField, hk, Doc.lookup]
    · simp only [Doc.setField, if_neg hk]
      simp only [Doc.lookup, if_neg hk, ih]

theorem Doc.lookup_setField_ne (d : Doc) (k : String) (v : Value) (k' : String)
    (h : k' ≠ k) : Doc.lookup (Doc.setField d k v) k' = Doc.lookup d k' := by
  induction d with
  | nil =>
    simp only [Doc.setField, Doc.lookup]
    rw [if_neg (fun hh => h hh.symm)]
  | cons kv t ih =>
    by_cases hk : kv.1 = k
    · subst hk
      simp only [Doc.setField, if_pos rfl, Doc.lookup]
      rw [if_neg (fun hh => h hh.symm), if_neg (fun hh => h hh.symm)]
    · simp only [Doc.setField, if_neg hk, Doc.lookup, ih]

theorem Doc.keys_setField (d : Doc) (k : String) (v : Value) :
    Doc.keys (Doc.setField d k v) =
      if k ∈ Doc.keys d then Doc.keys d else Doc.keys d ++ [k] := by
  induction d with
  | nil => simp [Doc.setField, Doc.keys]
  | cons kv t ih =>
    by_cases hk : kv.1 = k
    · simp [Doc.setField, hk, Doc.keys]
    · simp only [Doc.setField, if_neg hk, Doc.keys, List.map_cons] at ih ⊢
      rw [ih]
      by_cases hm : k ∈ t.map Prod.fst
      · simp only [if_pos hm, List.mem_cons, hm, or_true, if_pos]
      · have hne : ¬(k = kv.1 ∨ k ∈ t.map Prod.fst) := by
          rintro (hh | hh)
          · exact hk hh.symm
          · exact hm hh
        simp only [if_neg hm, List.mem_cons, if_neg hne, List.cons_append]

theorem Doc.nodup_keys_setField (d : Doc) (k : String) (v : Value)
    (h : (Doc.keys d).Nodup) : (Doc.keys (Doc.setField d k v)).Nodup := by
  rw [Doc.keys_setField]
  by_cases hm : k ∈ Doc.keys d
  · simpa [hm] using h
  · rw [if_neg hm]
    refine List.Nodup.append h (List.nodup_singleton k) ?_
    intro a ha hb
    simp only [List.mem_singleton] at hb
    subst hb
    exact hm ha

theorem Doc.update_nil (d : Doc) : Doc.update d [] = d := rfl

theorem Doc.update_cons (d : Doc) (k : String) (v : Value) (u : Doc) :
    Doc.update d ((k, v) :: u) = Doc.update (Doc.setField d k v) u := rfl

theorem Doc.lookup_update_not_mem (d : Doc) (u : Doc) (k : String)
    (h : k ∉ Doc.keys u) : Doc.lookup (Doc.update d u) k = Doc.lookup d k := by
  induction u generalizing d with
  | nil => rfl
  | cons kv t ih =>
    simp only [Doc.keys, List.map_cons, List.mem_cons, not_or] at h
    rcases kv with ⟨a, b⟩
    rw [Doc.update_cons, ih _ (by simpa [Doc.keys] using h.2),
      Doc.lookup_setField_ne _ _ _ _ (by simpa using h.1)]

theorem Doc.lookup_update (d : Doc) (u : Doc) (k : String) (h : (Doc.keys u).Nodup) :
    Doc.lookup (Doc.update d u) k =
      match Doc.lookup u k with
      | some v => some v
      | none => Doc.lookup d k := by
  induction u generalizing d with
  | nil => rfl
  | cons kv t ih =>
    rcases kv with ⟨a, b⟩
    simp only [Doc.keys, List.map_cons, List.nodup_cons] at h
    by_cases hk : a = k
    · subst hk
      have ht : Doc.lookup t a = none :=
        Doc.lookup_eq_none_of_not_mem (by simpa [Doc.keys] using h.1)
      rw [Doc.update_cons, ih _ (by simpa [Doc.keys] using h.2)]
      simp [ht, Doc.lookup, Doc.lookup_setField_self]
    · rw [Doc.update_cons, ih _ (by simpa [Doc.keys] using h.2)]
      simp only [Doc.lookup, if_neg hk]
      cases hl : Doc.lookup t k with
      | some v => rfl
      | none => simp [Doc.lookup_setField_ne _ _ _ _ (Ne.symm hk)]

theorem updateOne_of_forall_not (l : List Doc) (p : Doc → Bool) (upd : Doc)
    (h : ∀ d ∈ l, p d = false) : updateOne l p upd = (l, false) := by
  induction l with
  | nil => rfl
  | cons d t ih =>
    have hd := h d (by simp)
    have ht := ih (fun x hx => h x (by simp [hx]))
    simp [updateOne, hd, ht]

theorem updateOne_matched (l : List Doc) (p : Doc → Bool) (upd : Doc) (m : Doc)
    (hfind : findOne l p = some m)
    (hp : ∀ d, p d = true → p (Doc.update d upd) = true) :
    (updateOne l p upd).2 = true ∧
      findOne (updateOne l p upd).1 p = some (Doc.update m upd) := by
  induction l with
  | nil => simp [findOne, List.find?] at hfind
  | cons d t ih =>
    by_cases hd : p d
    · have hdm : d = m := by simpa [findOne, List.find?, hd] using hfind
      subst hdm
      simp [updateOne, hd, findOne, List.find?, hp d hd]
    · have hfind' : findOne t p = some m := by
        simpa [findOne, List.find?, hd] using hfind
      have hih := ih hfind'
      simp only [updateOne, hd]
      simp only [Bool.false_eq_true, if_neg, reduceIte]
      refine ⟨hih.1, ?_⟩
      simpa [findOne, List.find?, hd] using hih.2

/-! ### Sorting by descending date -/

theorem strLtB_irrefl (l : List Char) : strLtB l l = false := by
  induction l with
  | nil => rfl
  | cons a t ih => simp [strLtB, lt_irrefl, ih]

theorem strLtB_trans {a b c : List Char}
    (h1 : strLtB a b = true) (h2 : strLtB b c = true) : strLtB a c = true := by
  induction a generalizing b c with
  | nil =>
    cases b with
    | nil => simp [strLtB] at h1
    | cons y ys =>
      cases c with
      | nil => simp [strLtB] at h2
      | cons z zs => rfl
  | cons x xs ih =>
    cases b with
    | nil => simp [strLtB] at h1
    | cons y ys =>
      cases c with
      | nil => simp [strLtB] at h2
      | cons z zs =>
        simp only [strLtB] at h1 h2 ⊢
        by_cases hxy : x < y
        · by_cases hyz : y < z
          · simp [lt_trans hxy hyz]
          · simp only [if_neg hyz] at h2
            by_cases hzy : z < y
            · simp [hzy] at h2
            · have hyzeq : y = z := le_antisymm (le_of_not_lt hzy) (le_of_not_lt hyz)
              subst hyzeq
              simp [hxy]
        · simp only [if_neg hxy] at h1
          by_cases hyx : y < x
          · simp [hyx] at h1
          · have hxyeq : x = y := le_antisymm (le_of_not_lt hyx) (le_of_not_lt hxy)
            subst hxyeq
            rw [if_neg (lt_irrefl x)] at h1
            by_cases hyz : x < z
            · simp [hyz]
            · simp only [if_neg hyz] at h2 ⊢
              by_cases hzy : z < x
              · simp [hzy] at h2
              · simp only [if_neg hzy] at h2 ⊢
                exact ih h1 h2

theorem strLtB_eq_of_not_lt {a b : List Char}
    (h1 : strLtB a b = false) (h2 : strLtB b a = false) : a = b := by
  induction a generalizing b with
  | nil =>
    cases b with
    | nil => rfl
    | cons y ys => simp [strLtB] at h1
  | cons x xs ih =>
    cases b with
    | nil => simp [strLtB] at h2
    | cons y ys =>
      simp only [strLtB] at h1 h2
      by_cases hxy : x < y
      · simp [hxy] at h1
      · by_cases hyx : y < x
        · simp [hyx] at h2
        · have hxyeq : x = y := le_antisymm (le_of_not_lt hyx) (le_of_not_lt hxy)
          subst hxyeq
          simp only [if_neg hxy, lt_irrefl, if_neg (lt_irrefl x)] at h1 h2
          rw [ih h1 h2]

theorem strLtB_asymm {a b : List Char} (h : strLtB a b = true) : strLtB b a = false := by
  by_contra hba
  rw [Bool.not_eq_false] at hba
  have := strLtB_trans h hba
  rw [strLtB_irrefl] at this
  exact Bool.noConfusion this

instance : IsTotal Doc (fun a b => strLt (dateOf a) (dateOf b) = false) := by
  refine ⟨fun a b => ?_⟩
  by_cases h : strLt (dateOf a) (dateOf b) = true
  · exact Or.inr (strLtB_asymm h)
  · exact Or.inl (Bool.not_eq_true _ ▸ h)

instance : IsTrans Doc (fun a b => strLt (dateOf a) (dateOf b) = false) := by
  refine ⟨fun a b c h1 h2 => ?_⟩
  by_contra h3
  rw [Bool.not_eq_false] at h3
  by_cases hba : strLt (dateOf b) (dateOf a) = true
  · have := strLtB_trans hba h3
    rw [show strLt (dateOf b) (dateOf c) = true from this] at h2
    exact Bool.noConfusion h2
  · have heq : (dateOf b).data = (dateOf a).data :=
      strLtB_eq_of_not_lt (Bool.not_eq_true _ ▸ hba) h1
    have : strLt (dateOf b) (dateOf c) = true := by
      unfold strLt at h3 ⊢
      rw [heq]
      exact h3
    rw [this] at h2
    exact Bool.noConfusion h2

theorem sortByDateDesc_perm (l : List Doc) : List.Perm (sortByDateDesc l) l :=
  List.perm_insertionSort _ l

theorem sortByDateDesc_eq_nil_iff (l : List Doc) : sortByDateDesc l = [] ↔ l = [] := by
  constructor
  · intro h
    have hp := sortByDateDesc_perm l
    rw [h] at hp
    exact hp.symm.eq_nil
  · intro h
    subst h
    rfl

theorem sortByDateDesc_head_max (l : List Doc) (m : Doc)
    (h : (sortByDateDesc l).head? = some m) :
    m ∈ l ∧ ∀ x ∈ l, strLt (dateOf m) (dateOf x) = false := by
  cases hs : sortByDateDesc l with
  | nil => rw [hs] at h; simp at h
  | cons a t =>
    rw [hs] at h
    simp only [List.head?_cons, Option.some.injEq] at h
    subst h
    have hsorted : List.Sorted (fun a b : Doc => strLt (dateOf a) (dateOf b) = false)
        (sortByDateDesc l) := List.sorted_insertionSort _ l
    rw [hs] at hsorted
    have hpair := (List.sorted_cons.mp hsorted).1
    have hmem : a ∈ l := (sortByDateDesc_perm l).subset (by rw [hs]; simp)
    refine ⟨hmem, fun x hx => ?_⟩
    have hx' : x ∈ sortByDateDesc l := (sortByDateDesc_perm l).mem_iff.mpr hx
    rw [hs] at hx'
    rcases List.mem_cons.mp hx' with h1 | h2
    · subst h1
      unfold strLt
      exact strLtB_irrefl _
    · exact hpair x h2

/-! ### Columns of the export data frame -/

theorem mem_presentCols_aux (l : List Doc) (acc : List String) (c : String)
    (h : c ∈ l.foldl (fun acc d => acc ++ (d.keys.filter (fun k => decide (k ∉ acc)))) acc) :
    c ∈ acc ∨ ∃ d ∈ l, c ∈ d.keys := by
  induction l generalizing acc with
  | nil => exact Or.inl h
  | cons d t ih =>
    rcases ih _ h with h1 | h2
    · rcases List.mem_append.mp h1 with ha | hb
      · exact Or.inl ha
      · exact Or.inr ⟨d, by simp, (List.mem_filter.mp hb).1⟩
    · rcases h2 with ⟨d', hd', hk⟩
      exact Or.inr ⟨d', by simp [hd'], hk⟩

theorem mem_presentCols (l : List Doc) (c : String) (h : c ∈ presentCols l) :
    ∃ d ∈ l, c ∈ d.keys := by
  rcases mem_presentCols_aux l [] c h with h1 | h2
  · simp at h1
  · exact h2

/-! ### The sticky-default write-back document -/

theorem stickyUpdates_keys_sub (u : Doc) (k : String)
    (h : k ∈ (stickyUpdates u).keys) :
    k = "assign_website" ∨ k = "task_assign_no" ∨ k = "other_tasks" := by
  rcases h1 : u.lookup "assign_website" with _ | v1 <;>
    rcases h2 : u.lookup "task_assign_no" with _ | v2 <;>
    rcases h3 : u.lookup "other_tasks" with _ | v3 <;>
    simp [stickyUpdates, h1, h2, h3, Doc.keys] at h <;> tauto

theorem stickyUpdates_keys_nodup (u : Doc) : (stickyUpdates u).keys.Nodup := by
  rcases h1 : u.lookup "assign_website" with _ | v1 <;>
    rcases h2 : u.lookup "task_assign_no" with _ | v2 <;>
    rcases h3 : u.lookup "other_tasks" with _ | v3 <;>
    simp [stickyUpdates, h1, h2, h3, Doc.keys]

theorem stickyUpdates_lookup (u : Doc) (k : String)
    (h : k = "assign_website" ∨ k = "task_assign_no" ∨ k = "other_tasks") :
    (stickyUpdates u).lookup k = u.lookup k := by
  rcases h1 : u.lookup "assign_website" with _ | v1 <;>
    rcases h2 : u.lookup "task_assign_no" with _ | v2 <;>
    rcases h3 : u.lookup "other_tasks" with _ | v3 <;>
    rcases h with rfl | rfl | rfl <;>
    simp [stickyUpdates, h1, h2, h3, Doc.lookup]

theorem stickyUpdates_eq_nil (u : Doc)
    (h : stickyUpdates u = []) (k : String)
    (hk : k = "assign_website" ∨ k = "task_assign_no" ∨ k = "other_tasks") :
    u.lookup k = none := by
  have := stickyUpdates_lookup u k hk
  rw [h] at this
  simpa [Doc.lookup] using this.symm

/-! ## Claim C6 -/

/-- C6, counterexample: an expired token (correctly signed, `exp = 50 < now =
100`) and a structurally malformed token produce the *same* untagged result
`none` from `verify_token`, so the failure carries no `Expired` vs
`Malformed`/`Invalid` tag and callers cannot distinguish the two cases,
contrary to the claim. -/
theorem verify_token_counterexample :
    verify_token "secret" 100
        (TokenInput.signed ⟨"u1", "u1@example.com", "user", 0, 50⟩ "secret") = none
    ∧ verify_token "secret" 100 (TokenInput.malformed "not-a-jwt") = none :=
  ⟨rfl, rfl⟩

/-- C6, amended: `verify_token` never throws (it is total, catching both
`ExpiredSignatureError` and `InvalidTokenError`) and rejects with the single
untagged failure `none`: it returns claims exactly for a correctly signed,
unexpired token, and `none` in every other case — expired and
invalid/malformed tokens are indistinguishable to the caller, though a
failure is always distinguishable from valid claims. -/
theorem verify_token_untagged (secret : String) (now : Nat) (tok : TokenInput) :
    (∀ c, verify_token secret now tok = some c →
        tok = TokenInput.signed c secret ∧ now < c.exp)
    ∧ (verify_token secret now tok = none ↔
        ∀ c, tok = TokenInput.signed c secret → c.exp ≤ now) := by
  cases tok with
  | malformed raw =>
    have hv : verify_token secret now (TokenInput.malformed raw) = none := rfl
    refine ⟨fun c h => absurd (hv ▸ h) (by simp), ?_⟩
    rw [hv]
    exact ⟨fun _ c hc => TokenInput.noConfusion hc, fun _ => rfl⟩
  | signed c s =>
    by_cases hs : s = secret
    · by_cases hexp : c.exp ≤ now
      · have hv : verify_token secret now (TokenInput.signed c s) = none := by
          simp [verify_token, jwtDecode, hs, hexp]
        refine ⟨fun c' h => absurd (hv ▸ h) (by simp), ?_⟩
        rw [hv]
        refine ⟨fun _ c' hc => ?_, fun _ => rfl⟩
        injection hc with h1 h2
        subst h1
        exact hexp
      · have hv : verify_token secret now (TokenInput.signed c s) = some c := by
          simp [verify_token, jwtDecode, hs, hexp]
        refine ⟨fun c' h => ?_, ?_⟩
        · rw [hv] at h
          cases h
          exact ⟨by rw [hs], Nat.lt_of_not_le hexp⟩
        · rw [hv]
          refine ⟨fun h => Option.noConfusion h, fun h => absurd (h c (by rw [hs])) hexp⟩
    · have hv : verify_token secret now (TokenInput.signed c s) = none := by
        simp [verify_token, jwtDecode, hs]
      refine ⟨fun c' h => absurd (hv ▸ h) (by simp), ?_⟩
      rw [hv]
      refine ⟨fun _ c' hc => ?_, fun _ => rfl⟩
      cases hc
      exact absurd rfl hs

/-! ## Claim C7 -/

/-- C7, counterexample: a request with *no* token at all is rejected by the
gate with HTTP 403 (FastAPI's `HTTPBearer` dependency), not with the
claimed Unauthenticated 401 — so the missing-token outcome is numerically
identical to the Forbidden outcome, contrary to the claim. -/
theorem require_admin_counterexample :
    require_admin "secret" 0 [] AuthHeader.missing =
      Except.error ⟨403, "Not authenticated"⟩
    ∧ (403 : Nat) ≠ 401 :=
  ⟨rfl, by decide⟩

/-- C7, amended: a valid unexpired token whose subject resolves to a stored
account with role `user` is rejected by `require_admin` with 403 Forbidden,
distinct from the 401 Unauthenticated produced for a malformed token, an
expired token, or a valid token whose account is absent from the User
Store; a request with a missing bearer credential, however, is rejected
with 403 "Not authenticated" by the HTTP-bearer dependency, not 401. -/
theorem require_admin_distinguishes (secret : String) (now : Nat) (users : List Doc)
    (claims : Claims) (u : Doc)
    (hexp : now < claims.exp)
    (hfind : findOne users (uidFilter claims.uid) = some u)
    (hrole : Doc.lookup u "role" = some (Value.str "user")) :
    require_admin secret now users
        (AuthHeader.scheme "Bearer" (some (TokenInput.signed claims secret)))
      = Except.error ⟨403, "Admin privileges required"⟩
    ∧ (∀ raw, require_admin secret now users
        (AuthHeader.scheme "Bearer" (some (TokenInput.malformed raw)))
      = Except.error ⟨401, "Invalid authentication credentials"⟩)
    ∧ (∀ c : Claims, c.exp ≤ now → require_admin secret now users
        (AuthHeader.scheme "Bearer" (some (TokenInput.signed c secret)))
      = Except.error ⟨401, "Invalid authentication credentials"⟩)
    ∧ (∀ c : Claims, now < c.exp → findOne users (uidFilter c.uid) = none →
        require_admin secret now users
          (AuthHeader.scheme "Bearer" (some (TokenInput.signed c secret)))
        = Except.error ⟨401, "User not found in database"⟩)
    ∧ require_admin secret now users AuthHeader.missing
        = Except.error ⟨403, "Not authenticated"⟩
    ∧ (403 : Nat) ≠ 401 := by
  have hlow : lowerStr "Bearer" = "bearer" := by decide
  have hbearer : ∀ t : TokenInput,
      httpBearer (AuthHeader.scheme "Bearer" (some t)) = Except.ok t := fun t => by
    simp [httpBearer, hlow]
  refine ⟨?_, ?_, ?_, ?_, rfl, by decide⟩
  · have hv : verify_token secret now (TokenInput.signed claims secret) = some claims := by
      simp [verify_token, jwtDecode, Nat.not_le.mpr hexp]
    have hrole' : ∀ user : Doc,
        Doc.lookup (if emailFalsy user then Doc.setField user "email" (Value.str claims.email)
          else user) "role" = Doc.lookup user "role" := by
      intro user
      by_cases he : emailFalsy user
      · rw [if_pos he, Doc.lookup_setField_ne _ _ _ _ (by decide)]
      · rw [if_neg he]
    simp [require_admin, get_current_user, hbearer, hv, hfind, hrole', hrole]
  · intro raw
    simp [require_admin, get_current_user, hbearer, verify_token, jwtDecode]
  · intro c hc
    have hv : verify_token secret now (TokenInput.signed c secret) = none := by
      simp [verify_token, jwtDecode, hc]
    simp [require_admin, get_current_user, hbearer, hv]
  · intro c hc hnone
    have hv : verify_token secret now (TokenInput.signed c secret) = some c := by
      simp [verify_token, jwtDecode, Nat.not_le.mpr hc]
    simp [require_admin, get_current_user, hbearer, hv, hnone]

/-- C7, witness for the amended theorem at a concrete store and token. -/
theorem require_admin_distinguishes_witness :
    require_admin "secret" 10
        [[("uid", Value.str "u1"), ("email", Value.str "u1@x.com"),
          ("role", Value.str "user")]]
        (AuthHeader.scheme "Bearer"
          (some (TokenInput.signed ⟨"u1", "u1@x.com", "user", 0, 100⟩ "secret")))
      = Except.error ⟨403, "Admin privileges required"⟩ :=
  (require_admin_distinguishes "secret" 10
    [[("uid", Value.str "u1"), ("email", Value.str "u1@x.com"),
      ("role", Value.str "user")]]
    ⟨"u1", "u1@x.com", "user", 0, 100⟩
    [("uid", Value.str "u1"), ("email", Value.str "u1@x.com"),
     ("role", Value.str "user")]
    (by decide) (by decide) (by decide)).1

/-! ## Claims C1 and C2 -/

theorem taskSave_getattr_date (t : TaskSave) : TaskSave.getattr t "date" = none := by
  simp [TaskSave.getattr]

/-- C1: contrary to the claim, no `save(user, payload)` call completes as an
upsert at all: `save_task` reads `task_data.date` but the `TaskSave` schema
declares no `date` field, so every request — with or without a `date` key in
the payload (Pydantic silently drops the undeclared key either way) —
raises `AttributeError` before touching the store. -/
theorem save_task_attribute_error (user : Doc) (uid : String) (task_data : TaskSave)
    (today : String) (now : Nat) (st : DBState)
    (huid : Doc.lookup user "uid" = some (Value.str uid)) :
    save_task user task_data today now st =
      Except.error (PyError.attributeError "TaskSave object has no attribute date") := by
  simp [save_task, huid, taskSave_getattr_date]

/-- C1, witness: a concrete save request (payload that set only `status`,
exactly the body `{"status": "Completed", "date": "2024-01-05"}` produces
after validation drops the undeclared `date` key) raises `AttributeError`. -/
theorem save_task_attribute_error_witness :
    save_task [("uid", Value.str "u1"), ("name", Value.str "Alice")]
        { status := some "Completed", fields_set := ["status"] }
        "2024-01-06" 1000 ⟨[], []⟩ =
      Except.error (PyError.attributeError "TaskSave object has no attribute date") :=
  save_task_attribute_error [("uid", Value.str "u1"), ("name", Value.str "Alice")] "u1"
    { status := some "Completed", fields_set := ["status"] }
    "2024-01-06" 1000 ⟨[], []⟩ (by decide)

/-- C2: contrary to the claim, no save ever overwrites a field or refreshes
`updated_at`: because every `save_task` call raises before reaching the
store (see the missing `TaskSave.date` field), the database state after any
save attempt — in particular on an existing `(user, date)` record — is
exactly the prior state, so `updated_at` never advances. -/
theorem save_task_never_mutates (user : Doc) (task_data : TaskSave)
    (today : String) (now : Nat) (st : DBState) :
    runSaveTask user task_data today now st = st := by
  cases h : Doc.lookup user "uid" with
  | none => simp [runSaveTask, save_task, h]
  | some v => cases v <;> simp [runSaveTask, save_task, h, taskSave_getattr_date]

/-! ## Claim C3 -/

/-- C3: for a user `U` (with stored sticky defaults `w`, `n`, `o`) and a date
`D` with no stored task, `get_today_task` returns `exists = false` together
with a non-persisted template whose `assign_website`, `task_assign_no` and
`other_tasks` equal the stored defaults, whose `status` is "Not Started"
and whose `total_pages_done` is 0; when a record exists it returns
`exists = true` with that record — the two shapes differ in the flag. -/
theorem get_today_task_spec (D : String) (user udoc : Doc) (uid today : String)
    (st : DBState) (w n o : String)
    (hD : D ≠ "")
    (huid : Doc.lookup user "uid" = some (Value.str uid))
    (hudoc : findOne st.users (uidFilter uid) = some udoc)
    (hw : Doc.lookup udoc "assign_website" = some (Value.str w))
    (hn : Doc.lookup udoc "task_assign_no" = some (Value.str n))
    (ho : Doc.lookup udoc "other_tasks" = some (Value.str o)) :
    (findOne st.tasks (taskKeyFilter uid D) = none →
      get_today_task (some D) user today st =
        Except.ok ⟨false, some
          [("date", Value.str D), ("assign_website", Value.str w),
           ("task_assign_no", Value.str n), ("other_tasks", Value.str o),
           ("status", Value.str "Not Started"), ("total_pages_done", Value.int 0)]⟩)
    ∧ (∀ tdoc, findOne st.tasks (taskKeyFilter uid D) = some tdoc →
        get_today_task (some D) user today st = Except.ok ⟨true, some tdoc⟩) := by
  have htarget : orToday (some D) today = D := by simp [orToday, hD]
  constructor
  · intro hnone
    simp [get_today_task, htarget, huid, hnone, hudoc, Doc.getStrD, hw, hn, ho]
  · intro tdoc hsome
    simp [get_today_task, htarget, huid, hsome]

/-- C3, witness: concrete user with sticky defaults `W`/`N`/`O` and an empty
task store; the template is returned with those defaults. -/
theorem get_today_task_spec_witness :
    get_today_task (some "2024-01-06") [("uid", Value.str "u1")] "2024-01-07"
        ⟨[[("uid", Value.str "u1"), ("assign_website", Value.str "W"),
           ("task_assign_no", Value.str "N"), ("other_tasks", Value.str "O")]], []⟩ =
      Except.ok ⟨false, some
        [("date", Value.str "2024-01-06"), ("assign_website", Value.str "W"),
         ("task_assign_no", Value.str "N"), ("other_tasks", Value.str "O"),
         ("status", Value.str "Not Started"), ("total_pages_done", Value.int 0)]⟩ :=
  (get_today_task_spec "2024-01-06" [("uid", Value.str "u1")]
    [("uid", Value.str "u1"), ("assign_website", Value.str "W"),
     ("task_assign_no", Value.str "N"), ("other_tasks", Value.str "O")]
    "u1" "2024-01-07"
    ⟨[[("uid", Value.str "u1"), ("assign_website", Value.str "W"),
       ("task_assign_no", Value.str "N"), ("other_tasks", Value.str "O")]], []⟩
    "W" "N" "O"
    (by decide) (by decide) (by decide) (by decide) (by decide) (by decide)).1 (by decide)

/-! ## Claim C8 -/

theorem prevFilter_parts (uid D : String) (d : Doc) (h : prevFilter uid D d = true) :
    Doc.lookup d "user_id" = some (Value.str uid) ∧ strLt (dateOf d) D = true := by
  unfold prevFilter at h
  rw [Bool.and_eq_true] at h
  refine ⟨of_decide_eq_true h.1, ?_⟩
  have h2 := h.2
  cases hl : Doc.lookup d "date" with
  | none => rw [hl] at h2; simp at h2
  | some v =>
    cases v <;> rw [hl] at h2 <;> simp at h2
    case str s => simpa [dateOf, Doc.getStrD, hl] using h2

/-- C8: `get_previous_task(U, D)` never returns a record dated `D` or later:
any returned task is a stored task of `U` with `date < D`, maximal among
`U`'s stored tasks with `date < D`; when no stored task of `U` has
`date < D` the result is `exists = false` with `task = null`, and when one
does, the call returns `exists = true` with such a maximal task. -/
theorem get_previous_task_spec (D : String) (user : Doc) (uid today : String)
    (st : DBState)
    (hD : D ≠ "")
    (huid : Doc.lookup user "uid" = some (Value.str uid)) :
    (∀ tdoc, get_previous_task (some D) user today st = Except.ok ⟨true, some tdoc⟩ →
       tdoc ∈ st.tasks ∧ strLt (dateOf tdoc) D = true ∧
       ∀ d ∈ st.tasks, prevFilter uid D d = true →
         strLt (dateOf tdoc) (dateOf d) = false)
    ∧ (st.tasks.filter (prevFilter uid D) = [] →
       get_previous_task (some D) user today st = Except.ok ⟨false, none⟩)
    ∧ (st.tasks.filter (prevFilter uid D) ≠ [] →
       ∃ tdoc, get_previous_task (some D) user today st = Except.ok ⟨true, some tdoc⟩
         ∧ prevFilter uid D tdoc = true) := by
  have htarget : orToday (some D) today = D := by simp [orToday, hD]
  refine ⟨?_, ?_, ?_⟩
  · intro tdoc h
    rw [show get_previous_task (some D) user today st =
        (match (sortByDateDesc (st.tasks.filter (prevFilter uid D))).head? with
         | some task => Except.ok ⟨true, some task⟩
         | none => Except.ok ⟨false, none⟩) by
      simp [get_previous_task, htarget, huid]] at h
    cases hh : (sortByDateDesc (st.tasks.filter (prevFilter uid D))).head? with
    | none => rw [hh] at h; simp at h
    | some m =>
      rw [hh] at h
      simp only [Except.ok.injEq, TaskQueryResponse.mk.injEq, Option.some.injEq] at h
      have hm := sortByDateDesc_head_max _ _ hh
      have hmem := List.mem_filter.mp hm.1
      have hmf := prevFilter_parts uid D m hmem.2
      refine h.2 ▸ ⟨hmem.1, hmf.2, fun d hd hpd => ?_⟩
      exact hm.2 d (List.mem_filter.mpr ⟨hd, hpd⟩)
  · intro hfil
    simp [get_previous_task, htarget, huid, hfil, sortByDateDesc]
  · intro hfil
    cases hh : (sortByDateDesc (st.tasks.filter (prevFilter uid D))).head? with
    | none =>
      rw [List.head?_eq_none_iff, sortByDateDesc_eq_nil_iff] at hh
      exact absurd hh hfil
    | some m =>
      have hm := sortByDateDesc_head_max _ _ hh
      have hmem := List.mem_filter.mp hm.1
      refine ⟨m, ?_, hmem.2⟩
      simp [get_previous_task, htarget, huid, hh]

/-- C8, witness: with stored tasks dated 2024-01-01, 2024-01-03 and
2024-01-10, the previous task before 2024-01-05 is the 2024-01-03 one, and
its date is strictly below the bound. -/
theorem get_previous_task_spec_witness :
    get_previous_task (some "2024-01-05") [("uid", Value.str "u1")] "2024-01-07"
        ⟨[], [[("user_id", Value.str "u1"), ("date", Value.str "2024-01-01")],
              [("user_id", Value.str "u1"), ("date", Value.str "2024-01-03")],
              [("user_id", Value.str "u1"), ("date", Value.str "2024-01-10")]]⟩
      = Except.ok ⟨true, some [("user_id", Value.str "u1"), ("date", Value.str "2024-01-03")]⟩
    ∧ strLt (dateOf [("user_id", Value.str "u1"), ("date", Value.str "2024-01-03")])
        "2024-01-05" = true := by
  have heq : get_previous_task (some "2024-01-05") [("uid", Value.str "u1")] "2024-01-07"
      ⟨[], [[("user_id", Value.str "u1"), ("date", Value.str "2024-01-01")],
            [("user_id", Value.str "u1"), ("date", Value.str "2024-01-03")],
            [("user_id", Value.str "u1"), ("date", Value.str "2024-01-10")]]⟩
      = Except.ok ⟨true, some [("user_id", Value.str "u1"), ("date", Value.str "2024-01-03")]⟩ := by
    rfl
  have h := (get_previous_task_spec "2024-01-05" [("uid", Value.str "u1")] "u1" "2024-01-07"
    ⟨[], [[("user_id", Value.str "u1"), ("date", Value.str "2024-01-01")],
          [("user_id", Value.str "u1"), ("date", Value.str "2024-01-03")],
          [("user_id", Value.str "u1"), ("date", Value.str "2024-01-10")]]⟩
    (by decide) (by decide)).1 _ heq
  exact ⟨heq, h.2.1⟩

/-! ## Claim C4 -/

/-- C4, counterexample: admin-creating a task for user `u1` (whose sticky
defaults are `assign_website = "W"`, …) on 2024-01-05 with an empty payload
yields a record whose `assign_website` is `""` — not the user's sticky
default `"W"` — and whose `planner` is `"Admin (Boss)"` — not the
day-of-week name `"Friday"` derived from the date. -/
theorem admin_update_task_counterexample :
    ((runAdminUpdateTask "u1" "2024-01-05" []
        [("uid", Value.str "a1"), ("name", Value.str "Boss")] 1000
        ⟨[[("uid", Value.str "u1"), ("name", Value.str "Alice"),
           ("assign_website", Value.str "W"), ("task_assign_no", Value.str "N"),
           ("other_tasks", Value.str "O")]], []⟩).tasks.map
        (fun d => (Doc.lookup d "assign_website", Doc.lookup d "planner")))
      = [(some (Value.str ""), some (Value.str "Admin (Boss)"))]
    ∧ (some (Value.str "") : Option Value) ≠ some (Value.str "W")
    ∧ get_day_name "2024-01-05" = some "Friday"
    ∧ (some (Value.str "Admin (Boss)") : Option Value) ≠ some (Value.str "Friday") :=
  ⟨by decide, by decide, by decide, by decide⟩

/-- C4, amended: when no task exists for `(user_id, date)`, the admin upsert
fails NotFound (leaving the store unchanged) if the user is absent from the
User Store; otherwise it appends exactly one record synthesized not from
the user's sticky defaults but with *empty-string* assignment fields,
status "Not Started", zero `total_pages_done`, `owner_name` from the
user's stored name, and `planner` equal to `"Admin (<admin name>)"` (not
the day-of-week name), then overlaid with the supplied fields. -/
theorem admin_update_task_create_synthesis
    (user_id date : String) (task_update : Doc) (admin : Doc) (now : Nat) (st : DBState)
    (hnodup : (Doc.keys task_update).Nodup)
    (hnomatch : ∀ d ∈ st.tasks, taskKeyFilter user_id date d = false) :
    (findOne st.users (uidFilter user_id) = none →
      admin_update_task user_id date task_update admin now st =
        Except.error ⟨404, "User not found to assign task to"⟩
      ∧ runAdminUpdateTask user_id date task_update admin now st = st)
    ∧ (∀ user, findOne st.users (uidFilter user_id) = some user →
      ∃ c, (runAdminUpdateTask user_id date task_update admin now st).tasks = st.tasks ++ [c]
        ∧ (Doc.lookup task_update "assign_website" = none →
            Doc.lookup c "assign_website" = some (Value.str ""))
        ∧ (Doc.lookup task_update "task_assign_no" = none →
            Doc.lookup c "task_assign_no" = some (Value.str ""))
        ∧ (Doc.lookup task_update "other_tasks" = none →
            Doc.lookup c "other_tasks" = some (Value.str ""))
        ∧ (Doc.lookup task_update "planner" = none →
            Doc.lookup c "planner" =
              some (Value.str ("Admin (" ++ Doc.getStrD admin "name" "Admin" ++ ")")))
        ∧ (Doc.lookup task_update "status" = none →
            Doc.lookup c "status" = some (Value.str "Not Started"))
        ∧ (Doc.lookup task_update "owner_name" = none →
            Doc.lookup c "owner_name" = some (Value.str (Doc.getStrD user "name" "Unknown")))
        ∧ (Doc.lookup task_update "total_pages_done" = none →
            Doc.lookup c "total_pages_done" = some (Value.int 0))
        ∧ ∀ k v, k ≠ "updated_at" → Doc.lookup task_update k = some v →
            Doc.lookup c k = some v) := by
  have hr : updateOne st.tasks (taskKeyFilter user_id date)
      (Doc.setField task_update "updated_at" (Value.time now)) = (st.tasks, false) :=
    updateOne_of_forall_not _ _ _ hnomatch
  have hnodup' : (Doc.keys (Doc.setField task_update "updated_at" (Value.time now))).Nodup :=
    Doc.nodup_keys_setField _ _ _ hnodup
  constructor
  · intro hnone
    constructor
    · simp [admin_update_task, hr, hnone]
    · simp [runAdminUpdateTask, admin_update_task, hr, hnone]
  · intro user huser
    refine ⟨Doc.update
      [("user_id", Value.str user_id), ("date", Value.str date),
       ("owner_name", Value.str (Doc.getStrD user "name" "Unknown")),
       ("planner", Value.str ("Admin (" ++ Doc.getStrD admin "name" "Admin" ++ ")")),
       ("status", Value.str "Not Started"),
       ("assign_website", Value.str ""), ("task_assign_no", Value.str ""),
       ("other_tasks", Value.str ""), ("task_updates", Value.str ""),
       ("additional", Value.str ""), ("note", Value.str ""),
       ("total_pages_done", Value.int 0),
       ("created_at", Value.time now), ("updated_at", Value.time now)]
      (Doc.setField task_update "updated_at" (Value.time now)), ?_, ?_, ?_, ?_, ?_, ?_, ?_, ?_, ?_⟩
    · simp [runAdminUpdateTask, admin_update_task, hr, huser]
    · intro hk
      rw [Doc.lookup_update _ _ _ hnodup',
        Doc.lookup_setField_ne _ _ _ _ (by decide), hk]
      simp [Doc.lookup]
    · intro hk
      rw [Doc.lookup_update _ _ _ hnodup',
        Doc.lookup_setField_ne _ _ _ _ (by decide), hk]
      simp [Doc.lookup]
    · intro hk
      rw [Doc.lookup_update _ _ _ hnodup',
        Doc.lookup_setField_ne _ _ _ _ (by decide), hk]
      simp [Doc.lookup]
    · intro hk
      rw [Doc.lookup_update _ _ _ hnodup',
        Doc.lookup_setField_ne _ _ _ _ (by decide), hk]
      simp [Doc.lookup]
    · intro hk
      rw [Doc.lookup_update _ _ _ hnodup',
        Doc.lookup_setField_ne _ _ _ _ (by decide), hk]
      simp [Doc.lookup]
    · intro hk
      rw [Doc.lookup_update _ _ _ hnodup',
        Doc.lookup_setField_ne _ _ _ _ (by decide), hk]
      simp [Doc.lookup]
    · intro hk
      rw [Doc.lookup_update _ _ _ hnodup',
        Doc.lookup_setField_ne _ _ _ _ (by decide), hk]
      simp [Doc.lookup]
    · intro k v hku hk
      rw [Doc.lookup_update _ _ _ hnodup',
        Doc.lookup_setField_ne _ _ _ _ hku, hk]

/-- C4, witness for the amended theorem: concrete creation where the payload
field `note` is overlaid on the synthesized record. -/
theorem admin_update_task_create_synthesis_witness :
    ∃ c, (runAdminUpdateTask "u1" "2024-01-05" [("note", Value.str "hi")]
        [("uid", Value.str "a1"), ("name", Value.str "Boss")] 1000
        ⟨[[("uid", Value.str "u1"), ("name", Value.str "Alice")]], []⟩).tasks
      = [] ++ [c] ∧ Doc.lookup c "note" = some (Value.str "hi") := by
  have h := (admin_update_task_create_synthesis "u1" "2024-01-05"
    [("note", Value.str "hi")]
    [("uid", Value.str "a1"), ("name", Value.str "Boss")] 1000
    ⟨[[("uid", Value.str "u1"), ("name", Value.str "Alice")]], []⟩
    (by decide) (by intro d hd; exact absurd hd (List.not_mem_nil d))).2
    [("uid", Value.str "u1"), ("name", Value.str "Alice")] (by decide)
  rcases h with ⟨c, hc, rest⟩
  exact ⟨c, hc, rest.2.2.2.2.2.2.2 "note" (Value.str "hi") (by decide) (by decide)⟩

/-! ## Claim C5 -/

/-- C5: on either path of the admin upsert (update of an existing task or
creation of a new one), each of `assign_website` / `task_assign_no` /
`other_tasks` present in the payload is written onto the target user's User
Store record as the new sticky default, and each of the three absent from
the payload is left unchanged on the user record. -/
theorem admin_update_task_sticky (user_id date : String) (task_update : Doc)
    (admin : Doc) (now : Nat) (st : DBState) (m : Doc) (st' : DBState) (msg : String)
    (hm : findOne st.users (uidFilter user_id) = some m)
    (hok : admin_update_task user_id date task_update admin now st = Except.ok (st', msg)) :
    ∃ u', findOne st'.users (uidFilter user_id) = some u'
      ∧ ∀ k, (k = "assign_website" ∨ k = "task_assign_no" ∨ k = "other_tasks") →
          (∀ v, Doc.lookup task_update k = some v → Doc.lookup u' k = some v)
          ∧ (Doc.lookup task_update k = none → Doc.lookup u' k = Doc.lookup m k) := by
  have hknu : ∀ k, (k = "assign_website" ∨ k = "task_assign_no" ∨ k = "other_tasks") →
      k ≠ "updated_at" := by
    rintro k (rfl | rfl | rfl) <;> decide
  have hsu_lookup : ∀ k, (k = "assign_website" ∨ k = "task_assign_no" ∨ k = "other_tasks") →
      Doc.lookup (stickyUpdates (Doc.setField task_update "updated_at" (Value.time now))) k
        = Doc.lookup task_update k := by
    intro k hk
    rw [stickyUpdates_lookup _ _ hk, Doc.lookup_setField_ne _ _ _ _ (hknu k hk)]
  have huid_not : "uid" ∉
      Doc.keys (stickyUpdates (Doc.setField task_update "updated_at" (Value.time now))) := by
    intro hmem
    rcases stickyUpdates_keys_sub _ _ hmem with h | h | h <;> exact absurd h (by decide)
  have hp : ∀ d, uidFilter user_id d = true →
      uidFilter user_id (Doc.update d
        (stickyUpdates (Doc.setField task_update "updated_at" (Value.time now)))) = true := by
    intro d hd
    unfold uidFilter at hd ⊢
    rw [decide_eq_true_eq] at hd
    rw [decide_eq_true_eq, Doc.lookup_update_not_mem _ _ _ huid_not]
    exact hd
  have hkey : ∃ u', findOne
      (if stickyUpdates (Doc.setField task_update "updated_at" (Value.time now)) ≠ [] then
        (updateOne st.users (uidFilter user_id)
          (stickyUpdates (Doc.setField task_update "updated_at" (Value.time now)))).1
       else st.users) (uidFilter user_id) = some u'
      ∧ ∀ k, (k = "assign_website" ∨ k = "task_assign_no" ∨ k = "other_tasks") →
          (∀ v, Doc.lookup task_update k = some v → Doc.lookup u' k = some v)
          ∧ (Doc.lookup task_update k = none → Doc.lookup u' k = Doc.lookup m k) := by
    by_cases hnil : stickyUpdates (Doc.setField task_update "updated_at" (Value.time now)) = []
    · refine ⟨m, by simp [hnil, hm], fun k hk => ⟨fun v hv => ?_, fun _ => rfl⟩⟩
      have := stickyUpdates_eq_nil _ hnil k hk
      rw [Doc.lookup_setField_ne _ _ _ _ (hknu k hk), hv] at this
      exact Option.noConfusion this
    · have hup := updateOne_matched st.users (uidFilter user_id) _ m hm hp
      refine ⟨Doc.update m
        (stickyUpdates (Doc.setField task_update "updated_at" (Value.time now))),
        by simp only [if_pos hnil, ne_eq]; simpa using hup.2, fun k hk => ?_⟩
      rw [Doc.lookup_update _ _ _ (stickyUpdates_keys_nodup _), hsu_lookup k hk]
      constructor
      · intro v hv
        rw [hv]
      · intro hv
        rw [hv]
  have hst' : st'.users =
      (if stickyUpdates (Doc.setField task_update "updated_at" (Value.time now)) ≠ [] then
        (updateOne st.users (uidFilter user_id)
          (stickyUpdates (Doc.setField task_update "updated_at" (Value.time now)))).1
       else st.users) := by
    simp only [admin_update_task, hm] at hok
    rcases hif : (updateOne st.tasks (taskKeyFilter user_id date)
        (Doc.setField task_update "updated_at" (Value.time now))).2 with _ | _
    · rw [hif] at hok
      simp only [reduceIte] at hok
      cases hok
      rfl
    · rw [hif] at hok
      simp only [Bool.true_eq_false, reduceIte] at hok
      cases hok
      rfl
  rw [hst']
  exact hkey

/-- C5, witness: concrete update path — an existing task for `(u1,
2024-01-05)`, a payload setting `assign_website` to `"W2"`; the user record
ends with `assign_website = "W2"` and its `other_tasks` untouched. -/
theorem admin_update_task_sticky_witness :
    ∃ u', findOne
        (match admin_update_task "u1" "2024-01-05" [("assign_website", Value.str "W2")]
            [("uid", Value.str "a1"), ("name", Value.str "Boss")] 1000
            ⟨[[("uid", Value.str "u1"), ("assign_website", Value.str "W"),
               ("other_tasks", Value.str "O")]],
             [[("user_id", Value.str "u1"), ("date", Value.str "2024-01-05"),
               ("status", Value.str "Pending")]]⟩ with
         | Except.ok r => r.1.users
         | Except.error _ => []) (uidFilter "u1") = some u'
      ∧ Doc.lookup u' "assign_website" = some (Value.str "W2")
      ∧ Doc.lookup u' "other_tasks" = some (Value.str "O") := by
  have h := admin_update_task_sticky "u1" "2024-01-05"
    [("assign_website", Value.str "W2")]
    [("uid", Value.str "a1"), ("name", Value.str "Boss")] 1000
    ⟨[[("uid", Value.str "u1"), ("assign_website", Value.str "W"),
       ("other_tasks", Value.str "O")]],
     [[("user_id", Value.str "u1"), ("date", Value.str "2024-01-05"),
       ("status", Value.str "Pending")]]⟩
    [("uid", Value.str "u1"), ("assign_website", Value.str "W"),
     ("other_tasks", Value.str "O")]
    (runAdminUpdateTask "u1" "2024-01-05" [("assign_website", Value.str "W2")]
      [("uid", Value.str "a1"), ("name", Value.str "Boss")] 1000
      ⟨[[("uid", Value.str "u1"), ("assign_website", Value.str "W"),
         ("other_tasks", Value.str "O")]],
       [[("user_id", Value.str "u1"), ("date", Value.str "2024-01-05"),
         ("status", Value.str "Pending")]]⟩)
    "Task updated successfully" (by decide) (by rfl)
  rcases h with ⟨u', hfind, hprop⟩
  refine ⟨u', ?_, ?_, ?_⟩
  · rw [show (match admin_update_task "u1" "2024-01-05" [("assign_website", Value.str "W2")]
        [("uid", Value.str "a1"), ("name", Value.str "Boss")] 1000
        ⟨[[("uid", Value.str "u1"), ("assign_website", Value.str "W"),
           ("other_tasks", Value.str "O")]],
         [[("user_id", Value.str "u1"), ("date", Value.str "2024-01-05"),
           ("status", Value.str "Pending")]]⟩ with
       | Except.ok r => r.1.users
       | Except.error _ => ([] : List Doc)) =
      (runAdminUpdateTask "u1" "2024-01-05" [("assign_website", Value.str "W2")]
        [("uid", Value.str "a1"), ("name", Value.str "Boss")] 1000
        ⟨[[("uid", Value.str "u1"), ("assign_website", Value.str "W"),
           ("other_tasks", Value.str "O")]],
         [[("user_id", Value.str "u1"), ("date", Value.str "2024-01-05"),
           ("status", Value.str "Pending")]]⟩).users from rfl]
    exact hfind
  · exact ((hprop "assign_website" (Or.inl rfl)).1 (Value.str "W2") (by decide))
  · rw [(hprop "other_tasks" (Or.inr (Or.inr rfl))).2 (by decide)]
    decide

/-! ## Claim C9 -/

theorem Doc.lookup_isSome_of_mem_keys {d : Doc} {k : String}
    (h : k ∈ Doc.keys d) : (Doc.lookup d k).isSome := by
  induction d with
  | nil => simp [Doc.keys] at h
  | cons kv t ih =>
    by_cases hk : kv.1 = k
    · simp [Doc.lookup, hk]
    · simp only [Doc.keys, List.map_cons, List.mem_cons] at h
      rcases h with h | h
      · exact absurd h.symm hk
      · simp only [Doc.lookup, if_neg hk]
        exact ih h

/-- C9: `export_tasks(date?)` fails NotFound when the (optionally
date-filtered) task set is empty; otherwise it succeeds with exactly one
row per matching task, exactly the fixed 12 columns in the fixed order,
and every column absent from all stored matching records filled with the
empty string in every row. -/
theorem export_tasks_spec (dateQ : Option String) (today : String) (st : DBState) :
    (st.tasks.filter (exportQuery dateQ) = [] →
      export_tasks dateQ today st = Except.error ⟨404, "No tasks found"⟩)
    ∧ (st.tasks.filter (exportQuery dateQ) ≠ [] →
      ∃ e, export_tasks dateQ today st = Except.ok e
        ∧ e.header = expected_cols
        ∧ e.rows.length = (st.tasks.filter (exportQuery dateQ)).length
        ∧ ∀ c ∈ expected_cols,
            (∀ d ∈ st.tasks.filter (exportQuery dateQ), Doc.lookup d c = none) →
            ∀ r ∈ e.rows, ∀ i : Nat, expected_cols[i]? = some c →
              r[i]? = some (some (Value.str ""))) := by
  constructor
  · intro hfil
    have hsortnil : sortByDateDesc (st.tasks.filter (exportQuery dateQ)) = [] :=
      (sortByDateDesc_eq_nil_iff _).mpr hfil
    simp [export_tasks, hsortnil]
  · intro hfil
    have hsort : sortByDateDesc (st.tasks.filter (exportQuery dateQ)) ≠ [] :=
      fun hh => hfil ((sortByDateDesc_eq_nil_iff _).mp hh)
    refine ⟨⟨(match dateQ with
      | none => "tasks_all_" ++ today ++ ".xlsx"
      | some s => if s = "" then "tasks_all_" ++ today ++ ".xlsx"
                  else "tasks_" ++ s ++ ".xlsx"), expected_cols,
      (sortByDateDesc (st.tasks.filter (exportQuery dateQ))).map
        (fun d => expected_cols.map
          (exportCell (presentCols (sortByDateDesc (st.tasks.filter (exportQuery dateQ)))) d))⟩,
      ?_, rfl, ?_, ?_⟩
    · cases dateQ <;> simp [export_tasks, hsort]
    · rw [List.length_map]
      exact (sortByDateDesc_perm _).length_eq
    · intro c hc hnone r hr i hi
      rcases List.mem_map.mp hr with ⟨d, hd, rfl⟩
      have hnotcols : c ∉ presentCols (sortByDateDesc (st.tasks.filter (exportQuery dateQ))) := by
        intro hmem
        rcases mem_presentCols _ _ hmem with ⟨d', hd', hk⟩
        have hd'' : d' ∈ st.tasks.filter (exportQuery dateQ) :=
          (sortByDateDesc_perm _).subset hd'
        have hsome := Doc.lookup_isSome_of_mem_keys hk
        rw [hnone d' hd''] at hsome
        simp at hsome
      rw [List.getElem?_map, hi]
      simp [exportCell, hnotcols]

/-- C9, witness: one stored task on 2024-01-05 (with only `user_id`, `date`
and `status` fields); a filtered export has one row, the fixed header, and
its `note` column (absent from the data) is the empty string. -/
theorem export_tasks_spec_witness :
    ∃ e, export_tasks (some "2024-01-05") "2024-01-07"
        ⟨[], [[("user_id", Value.str "u1"), ("date", Value.str "2024-01-05"),
               ("status", Value.str "Done")]]⟩ = Except.ok e
      ∧ e.header = expected_cols
      ∧ e.rows.length = 1 := by
  have h := (export_tasks_spec (some "2024-01-05") "2024-01-07"
    ⟨[], [[("user_id", Value.str "u1"), ("date", Value.str "2024-01-05"),
           ("status", Value.str "Done")]]⟩).2 (by decide)
  rcases h with ⟨e, he, hh, hl, _⟩
  exact ⟨e, he, hh, by rw [hl]; decide⟩

/-! ## Claim C10 -/

/-- C10: a successful admin `delete_user(uid)` removes exactly the matching
account from the User Store — one account disappears and every non-matching
account survives — and leaves the Task Store entirely unchanged, with every
task record (the deleted user's included) intact. -/
theorem delete_user_spec (uid : String) (st : DBState)
    (h : st.users.any (uidFilter uid) = true) :
    ∃ st', delete_user uid st = Except.ok (st', "User deleted successfully")
      ∧ st'.tasks = st.tasks
      ∧ st'.users = st.users.eraseP (uidFilter uid)
      ∧ st'.users.length + 1 = st.users.length
      ∧ ∀ d ∈ st.users, uidFilter uid d = false → d ∈ st'.users := by
  refine ⟨⟨st.users.eraseP (uidFilter uid), st.tasks⟩, ?_, rfl, rfl, ?_, ?_⟩
  · simp [delete_user, deleteOne, h]
  · rcases List.any_eq_true.mp h with ⟨a, ha, hpa⟩
    have hlen := List.length_eraseP_of_mem ha hpa
    have hpos : 0 < st.users.length :=
      List.length_pos.mpr (by intro hh; rw [hh] at ha; exact absurd ha (List.not_mem_nil a))
    simp only [hlen]
    omega
  · intro d hd hpd
    exact (List.mem_eraseP_of_neg (by simp [hpd])).mpr hd

/-- C10, witness: deleting `u1` from a store with one account and two tasks
(one of them `u1`'s) leaves both tasks in place and empties the accounts. -/
theorem delete_user_spec_witness :
    ∃ st', delete_user "u1"
        ⟨[[("uid", Value.str "u1"), ("name", Value.str "Alice")]],
         [[("user_id", Value.str "u1"), ("date", Value.str "2024-01-05")],
          [("user_id", Value.str "u2"), ("date", Value.str "2024-01-06")]]⟩
      = Except.ok (st', "User deleted successfully")
      ∧ st'.tasks = [[("user_id", Value.str "u1"), ("date", Value.str "2024-01-05")],
                     [("user_id", Value.str "u2"), ("date", Value.str "2024-01-06")]]
      ∧ st'.users = [] := by
  rcases delete_user_spec "u1"
      ⟨[[("uid", Value.str "u1"), ("name", Value.str "Alice")]],
       [[("user_id", Value.str "u1"), ("date", Value.str "2024-01-05")],
        [("user_id", Value.str "u2"), ("date", Value.str "2024-01-06")]]⟩ (by decide)
    with ⟨st', h1, h2, h3, _⟩
  exact ⟨st', h1, h2, by rw [h3]; decide⟩

end TaskBackend
